import Mathlib

/-!
Shallow embedding of the order-flow / depth research pipeline
(`DataPreparation.py`, `Analysis.py`).

Modelling conventions:

* pandas float columns are modelled by `PFloat`: a rational number or the
  IEEE not-a-number (`nan`).  The only operations used by the source are
  embedded with their IEEE/pandas semantics: comparisons with `nan` are
  `false` (except `!=`, which is `true`), any arithmetic with `nan` gives
  `nan` (in particular `0 * nan = nan`), and pandas `.sum()` skips `nan`
  (`skipna=True` default).
* timestamps are natural numbers (seconds since epoch); `ts / 86400` is the
  calendar day, `ts % 86400` the time of day.  A date string `YYYY-MM-DD`
  is identified with its day number: lexicographic comparison of the fixed
  width strings coincides with `≤` on day numbers, and
  `datetime.timedelta(days=1)` is `+ 1`.
* resampling with a fixed frequency `delta` (e.g. `'10S'`, `'30Min'`,
  `'30T'`) sends a timestamp `t` to the bucket `t / delta` (buckets are
  anchored at midnight and right-open, exactly as pandas anchors them).
* the file reads (`pd.read_csv`) and the statsmodels OLS fit are external
  effects; they enter the embedding as explicit fallible inputs
  (`Except PyError _`), mirroring which Python exceptions can escape.
-/

/-- A pandas float: either a rational value or IEEE not-a-number. -/
inductive PFloat where
  | nan : PFloat
  | val : ℚ → PFloat
deriving DecidableEq, Repr, Inhabited

namespace PFloat

/-- IEEE addition restricted to the values the source produces. -/
def add : PFloat → PFloat → PFloat
  | nan, _ => nan
  | _, nan => nan
  | val a, val b => val (a + b)

/-- IEEE subtraction. -/
def sub : PFloat → PFloat → PFloat
  | nan, _ => nan
  | _, nan => nan
  | val a, val b => val (a - b)

/-- Multiplication of a boolean mask entry by a float, as in
`(df['bid_price'].diff() >= 0) * df['bid_amount']`: pandas casts the
boolean to `0.0`/`1.0`, and `0.0 * nan = nan`. -/
def boolMul (b : Bool) : PFloat → PFloat
  | nan => nan
  | val q => val (if b then q else 0)

/-- Multiplication by a scalar constant (`0.5 * x`); `0.5 * nan = nan`. -/
def mulVal (c : ℚ) : PFloat → PFloat
  | nan => nan
  | val q => val (c * q)

/-- Elementwise `x >= 0`; `nan >= 0` is `false`. -/
def geZero : PFloat → Bool
  | nan => false
  | val q => decide (0 ≤ q)

/-- Elementwise `x <= 0`; `nan <= 0` is `false`. -/
def leZero : PFloat → Bool
  | nan => false
  | val q => decide (q ≤ 0)

/-- Elementwise `x > 0`; `nan > 0` is `false`. -/
def gtZero : PFloat → Bool
  | nan => false
  | val q => decide (0 < q)

/-- Elementwise `x < 0`; `nan < 0` is `false`. -/
def ltZero : PFloat → Bool
  | nan => false
  | val q => decide (q < 0)

/-- Elementwise `x != 0`; NOTE `nan != 0` is `true` in pandas/numpy. -/
def neZero : PFloat → Bool
  | nan => true
  | val q => decide (q ≠ 0)

/-- The rational value, if not `nan`. -/
def toVal : PFloat → Option ℚ
  | nan => none
  | val q => some q

end PFloat

/-- pandas `Series.sum()` with the default `skipna=True`: `nan` entries are
skipped, and the empty sum is `0.0`. -/
def pdSum (l : List PFloat) : ℚ := (l.filterMap PFloat.toVal).sum

/-- pandas `Series.diff()`: first entry `nan`, then consecutive
differences `x[i] - x[i-1]`. -/
def pdDiff : List ℚ → List PFloat
  | [] => []
  | x :: xs => PFloat.nan :: List.zipWith (fun a b => PFloat.val (a - b)) xs (x :: xs)

/-- pandas `Series.shift(1)`: first entry `nan`, then `x[i-1]`. -/
def pdShift (xs : List ℚ) : List PFloat :=
  match xs with
  | [] => []
  | _ :: _ => PFloat.nan :: xs.dropLast.map PFloat.val

/-- Embed a `nan`-free column. -/
def toPF (xs : List ℚ) : List PFloat := xs.map PFloat.val

/-- Elementwise product of a boolean mask and a float column. -/
def seriesMulB (conds : List Bool) (xs : List PFloat) : List PFloat :=
  List.zipWith PFloat.boolMul conds xs

/-- Elementwise difference of two float columns. -/
def seriesSub (xs ys : List PFloat) : List PFloat := List.zipWith PFloat.sub xs ys

/-- Elementwise sum of two float columns. -/
def seriesAdd (xs ys : List PFloat) : List PFloat := List.zipWith PFloat.add xs ys

/-- One record of a quote file: `exchange, symbol, timestamp,
local_timestamp, ask_amount, ask_price, bid_price, bid_amount`, indexed by
`timestamp` (the string columns play no role in any computation and are
dropped). -/
structure QuoteRow where
  timestamp : ℕ
  ask_amount : ℚ
  ask_price : ℚ
  bid_price : ℚ
  bid_amount : ℚ
deriving DecidableEq, Repr, Inhabited

/-- One record of a trade file: `..., id, side, price, amount`. -/
structure TradeRow where
  timestamp : ℕ
  side : String
  price : ℚ
  amount : ℚ
deriving DecidableEq, Repr, Inhabited

/-- Model of `get_e_n` (DataPreparation.py:80-83), term by term:

    (bid_price.diff() >= 0) * bid_amount
  - (bid_price.diff() <= 0) * bid_amount.shift(1)
  - (ask_price.diff() <= 0) * ask_amount
  + (ask_price.diff() >= 0) * ask_amount.shift(1)
-/
def get_e_n (df : List QuoteRow) : List PFloat :=
  let bidp := df.map (·.bid_price)
  let bida := df.map (·.bid_amount)
  let askp := df.map (·.ask_price)
  let aska := df.map (·.ask_amount)
  seriesAdd
    (seriesSub
      (seriesSub
        (seriesMulB ((pdDiff bidp).map PFloat.geZero) (toPF bida))
        (seriesMulB ((pdDiff bidp).map PFloat.leZero) (pdShift bida)))
      (seriesMulB ((pdDiff askp).map PFloat.leZero) (toPF aska)))
    (seriesMulB ((pdDiff askp).map PFloat.geZero) (pdShift aska))

/-- Model of `get_mid_price` (DataPreparation.py:117). -/
def get_mid_price (ask_price bid_price : ℚ) (tick_size : ℚ) : ℚ :=
  (ask_price + bid_price) / (2 * tick_size)

/-- Model of `get_signed_amount_traded` (DataPreparation.py:146). -/
def get_signed_amount_traded (df : List TradeRow) : List ℚ :=
  df.map (fun row => if row.side = "buy" then row.amount else -1 * row.amount)

/-- The per-bucket aggregation the source applies to the mid-price series:
`lambda x: x.iloc[-1] - x.iloc[0] if len(x) >= 2 else 0`
(DataPreparation.py:186). -/
def delta_midprice_bucket (xs : List ℚ) : ℚ :=
  if 2 ≤ xs.length then xs.getLast?.getD 0 - xs.head?.getD 0 else 0

/-- The values of a timestamped series that fall in resampling bucket `j`
(bucket of `t` is `t / delta`), in index order. -/
def bucketVals (delta : ℕ) (series : List (ℕ × ℚ)) (j : ℕ) : List ℚ :=
  (series.filter (fun p => p.fst / delta == j)).map Prod.snd

/-- Model of `mid.resample(delta_t).apply(lambda x: ...)` at bucket `j`. -/
def resampleApplyDelta (delta : ℕ) (series : List (ℕ × ℚ)) (j : ℕ) : ℚ :=
  delta_midprice_bucket (bucketVals delta series j)

/-- Model of `get_e_n(quotes_df).resample(delta_t).sum()` at bucket `j`
(`sum` skips `nan`). -/
def resampleOFI (delta : ℕ) (quotes : List QuoteRow) (j : ℕ) : ℚ :=
  pdSum ((((quotes.map (·.timestamp)).zip (get_e_n quotes)).filter
    (fun p => p.fst / delta == j)).map Prod.snd)

/-- Resampled sum of a `nan`-free series at bucket `j`. -/
def resampleSumQ (delta : ℕ) (idx : List ℕ) (vals : List ℚ) (j : ℕ) : ℚ :=
  (((idx.zip vals).filter (fun p => p.fst / delta == j)).map Prod.snd).sum

/-- The tick-normalized mid-price series of a quote table. -/
def mid_price_series (quotes : List QuoteRow) (tick_size : ℚ) : List (ℕ × ℚ) :=
  quotes.map (fun r => (r.timestamp, get_mid_price r.ask_price r.bid_price tick_size))

/-- One interval-signal row. -/
structure SignalRow where
  timestamp : ℕ
  delta_midprice : ℚ
  OFI : ℚ
  TFI : ℚ
deriving DecidableEq, Repr, Inhabited

abbrev SignalTable := List SignalRow

/-- Row `j` of `construct_OFI_TFI_dataframe` (DataPreparation.py:184-187),
given the already-loaded quote and trade tables for the date. -/
def construct_OFI_TFI_row (quotes : List QuoteRow) (trades : List TradeRow)
    (delta : ℕ) (tick_size : ℚ) (j : ℕ) : SignalRow :=
  ⟨j * delta,
   resampleApplyDelta delta (mid_price_series quotes tick_size) j,
   resampleOFI delta quotes j,
   resampleSumQ delta (trades.map (·.timestamp)) (get_signed_amount_traded trades) j⟩

/-- The Python exceptions that can cross the modelled interfaces. -/
inductive PyError where
  | fileNotFound : PyError
  | indexError : PyError
  | keyError : PyError
  | valueError : String → PyError
  | otherError : PyError
deriving DecidableEq, Repr

/-- Model of `date_range_list` (DataPreparation.py:216-223): the inclusive list of
day numbers from `start_date` to `end_date` (empty when
`start_date > end_date`, as the `while` loop never runs). -/
def date_range_list (start_date end_date : ℕ) : List ℕ :=
  if start_date ≤ end_date then List.range' start_date (end_date + 1 - start_date) else []

/-- The `for`/`try` loop body of `output_df` (DataPreparation.py:263-271):
successful day tables are appended in date order; an `IndexError` and any
other exception are caught and reported by distinct messages naming the
date, and the loop continues. -/
def output_df_loop (construct : ℕ → Except PyError SignalTable) :
    List ℕ → List SignalTable × List String
  | [] => ([], [])
  | d :: rest =>
    let (ts, logs) := output_df_loop construct rest
    match construct d with
    | Except.ok t => (t :: ts, s!"{d} done!" :: logs)
    | Except.error PyError.indexError => (ts, s!"Index error: {d}" :: logs)
    | Except.error _ => (ts, s!"Other error: {d}" :: logs)

/-- Model of `pd.concat(objs)`: raises `ValueError` on an empty list of objects. -/
def pd_concat (objs : List SignalTable) : Except PyError SignalTable :=
  if objs.isEmpty then Except.error (PyError.valueError "No objects to concatenate")
  else Except.ok objs.flatten

/-- Model of `output_df` (DataPreparation.py:261-273).  `construct` stands for
`construct_OFI_TFI_dataframe` applied to one date (it loads that day's
files, hence the `Except`).  Returns the concatenated table (or the
`pd.concat` error) together with the console log. -/
def output_df (start_date end_date : ℕ) (construct : ℕ → Except PyError SignalTable) :
    Except PyError SignalTable × List String :=
  let (results, logs) := output_df_loop construct (date_range_list start_date end_date)
  (pd_concat results, logs)

/-- Bid-side (and, with the two masks swapped, ask-side) numerator of
`get_avg_depth` (DataPreparation.py:300-301):
`((diff < 0) * amount + (diff > 0) * amount.shift(1)).sum()`. -/
def depthSideSum (c1 c2 : PFloat → Bool) (prices amounts : List ℚ) : ℚ :=
  pdSum (List.zipWith
    (fun d pa => PFloat.add (PFloat.boolMul (c1 d) (PFloat.val pa.fst))
                            (PFloat.boolMul (c2 d) pa.snd))
    (pdDiff prices) (amounts.zip (pdShift amounts)))

/-- Model of `(prices.diff() != 0).sum()`: the count of entries whose difference is
nonzero — the undefined first difference (`nan`) satisfies `!= 0`. -/
def changeCount (prices : List ℚ) : ℕ :=
  ((pdDiff prices).filter PFloat.neZero).length

/-- numpy scalar division of the numerator sum by the count: `0.0 / 0`
yields `nan` (with a warning, no exception).  In `get_avg_depth` a zero
count forces a zero numerator, so the `x ≠ 0` branch of `x / 0` (infinity)
is unreachable and is not modelled. -/
def npDiv (num : ℚ) (den : ℕ) : PFloat :=
  if den = 0 then PFloat.nan else PFloat.val (num / den)

/-- Model of `get_avg_depth` (DataPreparation.py:300-301). -/
def get_avg_depth (df : List QuoteRow) : PFloat :=
  PFloat.mulVal (1/2) (PFloat.add
    (npDiv (depthSideSum PFloat.ltZero PFloat.gtZero
              (df.map (·.bid_price)) (df.map (·.bid_amount)))
           (changeCount (df.map (·.bid_price))))
    (npDiv (depthSideSum PFloat.gtZero PFloat.ltZero
              (df.map (·.ask_price)) (df.map (·.ask_amount)))
           (changeCount (df.map (·.ask_price)))))

/-- Insertion into a sorted list of naturals. -/
def insertSorted (x : ℕ) : List ℕ → List ℕ
  | [] => [x]
  | y :: ys => if x ≤ y then x :: y :: ys else y :: insertSorted x ys

/-- Insertion sort (pandas sorts an index union ascending). -/
def sortNat (l : List ℕ) : List ℕ := l.foldr insertSorted []

/-- Model of `pd.date_range(start, end, freq)`: the timestamps
`start, start + step, ...` not exceeding `end`. -/
def date_range (start stop step : ℕ) : List ℕ :=
  if start ≤ stop then List.range' start ((stop - start) / step + 1) step else []

/-- Minimum of a depth series index (`depth_series.index.min()`);
junk value `0` on the empty series, where pandas gives `NaT`. -/
def tsMinD : List (ℕ × PFloat) → ℕ
  | [] => 0
  | d :: ds => (ds.map Prod.fst).foldl min d.fst

/-- Maximum of a depth series index. -/
def tsMaxD : List (ℕ × PFloat) → ℕ
  | [] => 0
  | d :: ds => (ds.map Prod.fst).foldl max d.fst

/-- The fresh half-hour grid of `create_dataframe` (Analysis.py:110-113):
`pd.date_range(depth.index.min(), depth.index.max(), freq='30T')`. -/
def depth_grid (depth_series : List (ℕ × PFloat)) : List ℕ :=
  match depth_series with
  | [] => []
  | _ :: _ => date_range (tsMinD depth_series) (tsMaxD depth_series) 1800

/-- The rows of the aligned frame
`pd.DataFrame({'beta_coef': beta_series, 'avg_depth': depth_series})` once
the re-indexed `beta_series = pd.Series(beta.values, index=datetime_index)`
exists: the index is the sorted union of the two indices and each column is
looked up by timestamp, `nan` where absent (standard pandas alignment;
indices are assumed duplicate-free, which holds for the per-day resampled
depth series and for the fresh grid). -/
def cdRows (beta : List ℚ) (depth_series : List (ℕ × PFloat)) : List (ℕ × PFloat × PFloat) :=
  (sortNat ((depth_grid depth_series ++ depth_series.map Prod.fst).dedup)).map (fun t =>
    (t,
     (match ((depth_grid depth_series).zip beta).lookup t with
      | some q => PFloat.val q
      | none => PFloat.nan),
     (match depth_series.lookup t with
      | some v => v
      | none => PFloat.nan)))

/-- Model of `create_dataframe` (Analysis.py:110-117).
`pd.Series(beta_series.values, index=datetime_index)` raises
`ValueError` when the value count differs from the index length; with an
empty depth series `min`/`max` are `NaT` and `pd.date_range` raises. -/
def create_dataframe (beta : List ℚ) (depth_series : List (ℕ × PFloat)) :
    Except PyError (List (ℕ × PFloat × PFloat)) :=
  match depth_series with
  | [] => Except.error (PyError.valueError "cannot generate range with NaT")
  | _ :: _ =>
    if beta.length = (depth_grid depth_series).length then
      Except.ok (cdRows beta depth_series)
    else
      Except.error (PyError.valueError "Length of values does not match length of index")

/-- Model of `get_beta_coef` (Analysis.py:76-79): each fit's `params` series is a
lookup from coefficient name to value; a missing name raises `KeyError` at
the first offending fit. -/
def get_beta_coef : List (String → Option ℚ) → String → Except PyError (List ℚ)
  | [], _ => Except.ok []
  | r :: rest, fi =>
    match r fi with
    | some q => (get_beta_coef rest fi).map (fun l => q :: l)
    | none => Except.error PyError.keyError

/-- The external effects of `finished_df` (Analysis.py:164-175): the two
`pd.read_csv` calls (which raise if a file is missing or malformed) and the
statsmodels windowed OLS fit `get_OLS_results` (which raises on a window
with too few rows), returning each window's coefficient lookup. -/
structure AnalysisEnv where
  readData : Except PyError SignalTable
  readDepth : Except PyError (List (ℕ × PFloat))
  runOLS : SignalTable → Except PyError (List (String → Option ℚ))

/-- Model of `create_dataframe(beta, D)[start_date:end_date]`: partial-string date
slicing keeps the rows of every day from `start_date` to `end_date`
inclusive. -/
def sliceDates (start_date end_date : ℕ) (df : List (ℕ × PFloat × PFloat)) :
    List (ℕ × PFloat × PFloat) :=
  df.filter (fun r => decide (start_date ≤ r.fst / 86400) && decide (r.fst / 86400 ≤ end_date))

/-- Model of `finished_df` (Analysis.py:164-182): reads both files, runs the
windowed regression and extracts the beta series, and only then compares
the dates; on `end_date > start_date` it builds and slices the aligned
frame, otherwise it prints a notice and returns `None`. -/
def finished_df (env : AnalysisEnv) (Flow_imbalance : String)
    (start_date end_date : ℕ) : Except PyError (Option (List (ℕ × PFloat × PFloat))) :=
  match env.readData with
  | Except.error err => Except.error err
  | Except.ok data =>
    match env.readDepth with
    | Except.error err => Except.error err
    | Except.ok D =>
      match env.runOLS data with
      | Except.error err => Except.error err
      | Except.ok results =>
        match get_beta_coef results Flow_imbalance with
        | Except.error err => Except.error err
        | Except.ok beta =>
          if start_date < end_date then
            match create_dataframe beta D with
            | Except.ok fd => Except.ok (some (sliceDates start_date end_date fd))
            | Except.error err => Except.error err
          else
            Except.ok none

/-- The 48 half-hour-of-day labels of `list_of_halfhour_timestamps`
(Analysis.py:204-209), as seconds of day: 0, 1800, ..., 84600. -/
def halfhourLabels : List ℕ := (List.range 48).map (fun k => 1800 * k)

/-- pandas `Series.mean()` on a `nan`-free column. -/
def pdMean (xs : List ℚ) : ℚ := xs.sum / xs.length

/-- The column values at half-hour-of-day label `l` in index order
(`groupby('time')` after `strftime('%H:%M:%S')`; the label of a timestamp
is its time of day). -/
def labelValues (rows : List (ℕ × ℚ)) (l : ℕ) : List ℚ :=
  (rows.filter (fun r => r.fst % 86400 == l)).map Prod.snd

/-- The sorted distinct group keys of `groupby('time')` (pandas sorts the
keys; `'%H:%M:%S'` strings sort like times of day). -/
def groupKeys (rows : List (ℕ × ℚ)) : List ℕ :=
  sortNat ((rows.map (fun r => r.fst % 86400)).dedup)

/-- Model of `beta_D_data.groupby('time').col.mean()` (Analysis.py:242-243). -/
def means_by_time (rows : List (ℕ × ℚ)) : List ℚ :=
  (groupKeys rows).map (fun l => pdMean (labelValues rows l))

/-- Model of `means / global_mean` (Analysis.py:245-246). -/
def normalized_series (rows : List (ℕ × ℚ)) : List ℚ :=
  (means_by_time rows).map (fun m => m / pdMean (rows.map Prod.snd))

/-- A report column is non-degenerate when its group keys are exactly the
48 half-hour labels (so the plot against the 48 labels is well formed) and
its global mean is nonzero (so normalization divides by a nonzero number). -/
def nondegenerate (rows : List (ℕ × ℚ)) : Prop :=
  groupKeys rows = halfhourLabels ∧ pdMean (rows.map Prod.snd) ≠ 0

/-- The console line `output_df` prints for one date. -/
def logLine (construct : ℕ → Except PyError SignalTable) (d : ℕ) : String :=
  match construct d with
  | Except.ok _ => s!"{d} done!"
  | Except.error PyError.indexError => s!"Index error: {d}"
  | Except.error _ => s!"Other error: {d}"

/-! ### Supporting lemmas -/

theorem output_df_loop_eq (construct : ℕ → Except PyError SignalTable) (dates : List ℕ) :
    output_df_loop construct dates
      = (dates.filterMap (fun d => (construct d).toOption), dates.map (logLine construct)) := by
  induction dates with
  | nil => rfl
  | cons d rest ih =>
    simp only [output_df_loop, ih, List.filterMap_cons, List.map_cons, logLine]
    cases h : construct d with
    | ok t => simp [Except.toOption]
    | error e => cases e <;> simp [Except.toOption]

theorem output_df_fst (s e : ℕ) (construct : ℕ → Except PyError SignalTable) :
    (output_df s e construct).fst
      = pd_concat ((date_range_list s e).filterMap (fun d => (construct d).toOption)) := by
  simp [output_df, output_df_loop_eq]

theorem output_df_snd (s e : ℕ) (construct : ℕ → Except PyError SignalTable) :
    (output_df s e construct).snd = (date_range_list s e).map (logLine construct) := by
  simp [output_df, output_df_loop_eq]

theorem pd_concat_ok (l : List SignalTable) (h : l ≠ []) :
    pd_concat l = Except.ok l.flatten := by
  unfold pd_concat
  rw [if_neg (by simpa [List.isEmpty_iff] using h)]

theorem filterMap_toOption_ne_nil (construct : ℕ → Except PyError SignalTable)
    (dates : List ℕ) (h : ∃ d ∈ dates, (construct d).isOk = true) :
    dates.filterMap (fun d => (construct d).toOption) ≠ [] := by
  obtain ⟨d, hd, hok⟩ := h
  intro hnil
  rw [List.filterMap_eq_nil_iff] at hnil
  have := hnil d hd
  cases hc : construct d with
  | ok t => rw [hc] at this; simp [Except.toOption] at this
  | error er => rw [hc] at hok; simp [Except.isOk, Except.toBool] at hok

theorem date_range_list_split (d1 d2 d3 : ℕ) (h12 : d1 ≤ d2) (h23 : d2 ≤ d3) :
    date_range_list d1 d3 = date_range_list d1 d2 ++ date_range_list (d2 + 1) d3 := by
  unfold date_range_list
  rw [if_pos (le_trans h12 h23), if_pos h12]
  by_cases h : d2 + 1 ≤ d3
  · rw [if_pos h]
    have key := List.range'_append_1 d1 (d2 + 1 - d1) (d3 - d2)
    rw [show d1 + (d2 + 1 - d1) = d2 + 1 by omega] at key
    rw [show (d3 - d2) + (d2 + 1 - d1) = d3 + 1 - d1 by omega] at key
    rw [show d3 + 1 - (d2 + 1) = d3 - d2 by omega]
    exact key.symm
  · rw [if_neg h]
    have he : d2 = d3 := by omega
    subst he
    simp

/-! ### Claims about the multi-day assembler (`output_df`) -/

/-- Claim C6, counterexample: over a range whose only date fails, the
final `pd.concat` raises `ValueError`, so `output_df` does not return the
(empty) concatenation of the successful per-day tables. -/
theorem C6_cex :
    (output_df 0 0 (fun _ => Except.error PyError.otherError)).fst
        = Except.error (PyError.valueError "No objects to concatenate")
    ∧ (output_df 0 0 (fun _ => Except.error PyError.otherError)).fst.isOk = false := by
  exact ⟨rfl, rfl⟩

/-- Claim C6 (amended: provided at least one date in the range succeeds):
`output_df` catches each per-day failure, logging, for every date in
order, `"{d} done!"` on success, `"Index error: {d}"` on an `IndexError`
and `"Other error: {d}"` on any other failure (see `logLine`), continues to
the next date, and returns the concatenation of all successful per-day
tables preserving date order. -/
theorem C6_fault_tolerant_concat :
    ∀ (s e : ℕ) (construct : ℕ → Except PyError SignalTable),
    (∃ d ∈ date_range_list s e, (construct d).isOk = true) →
    (output_df s e construct).fst
        = Except.ok (((date_range_list s e).filterMap (fun d => (construct d).toOption)).flatten)
    ∧ (output_df s e construct).snd = (date_range_list s e).map (logLine construct) := by
  intro s e construct hex
  refine ⟨?_, output_df_snd s e construct⟩
  rw [output_df_fst, pd_concat_ok _ (filterMap_toOption_ne_nil construct _ hex)]

/-- Witness for C6: dates 0..1, date 0 succeeds with one row, date 1
raises `IndexError`; the run returns date 0's table and logs both dates. -/
theorem C6_witness :
    (∃ d ∈ date_range_list 0 1,
        ((fun d => if d = 1 then Except.error PyError.indexError
               else Except.ok ([⟨0, 0, 0, 0⟩] : SignalTable)) d).isOk = true)
    ∧ (output_df 0 1 (fun d => if d = 1 then Except.error PyError.indexError
               else Except.ok ([⟨0, 0, 0, 0⟩] : SignalTable))).fst
        = Except.ok [⟨0, 0, 0, 0⟩]
    ∧ (output_df 0 1 (fun d => if d = 1 then Except.error PyError.indexError
               else Except.ok ([⟨0, 0, 0, 0⟩] : SignalTable))).snd
        = ["0 done!", "Index error: 1"] := by
  have h : ∃ d ∈ date_range_list 0 1,
      ((fun d => if d = 1 then Except.error PyError.indexError
             else Except.ok ([⟨0, 0, 0, 0⟩] : SignalTable)) d).isOk = true :=
    ⟨0, by decide, rfl⟩
  have := C6_fault_tolerant_concat 0 1 _ h
  exact ⟨h, this.1, this.2⟩

/-- Claim C10: when every date in the range fails, no per-day table is
collected and the final `pd.concat([])` raises `ValueError` instead of
returning an empty table. -/
theorem C10_all_days_fail :
    ∀ (s e : ℕ) (construct : ℕ → Except PyError SignalTable),
    (∀ d ∈ date_range_list s e, (construct d).isOk = false) →
    (output_df s e construct).fst = Except.error (PyError.valueError "No objects to concatenate") := by
  intro s e construct h
  rw [output_df_fst]
  have hnil : (date_range_list s e).filterMap (fun d => (construct d).toOption) = [] := by
    rw [List.filterMap_eq_nil_iff]
    intro d hd
    have := h d hd
    cases hc : construct d with
    | ok t => rw [hc] at this; simp [Except.isOk, Except.toBool] at this
    | error er => simp [Except.toOption]
  rw [hnil]
  rfl

/-- Witness for C10: a one-day range whose day raises. -/
theorem C10_witness :
    (output_df 3 3 (fun _ => Except.error PyError.otherError)).fst
      = Except.error (PyError.valueError "No objects to concatenate") :=
  C10_all_days_fail 3 3 (fun _ => Except.error PyError.otherError) (by decide)

/-- Claim C8, counterexample: with date 0 failing and date 1 succeeding,
`output_df` over `[0,0]` raises (so its result cannot be concatenated with
the `[1,1]` result), while `output_df` over `[0,1]` directly returns date
1's table: the split/concatenate identity fails as stated. -/
theorem C8_cex :
    (output_df 0 0 (fun d => if d = 0 then Except.error PyError.otherError
        else Except.ok ([⟨0, 1, 2, 3⟩] : SignalTable))).fst.isOk = false
    ∧ (output_df 0 1 (fun d => if d = 0 then Except.error PyError.otherError
        else Except.ok ([⟨0, 1, 2, 3⟩] : SignalTable))).fst
        = Except.ok [⟨0, 1, 2, 3⟩] := by
  exact ⟨rfl, rfl⟩

/-- Claim C8 (amended: provided each of the two sub-ranges contains at
least one successful date): for `D1 ≤ D2 < D3` and identical per-day
inputs, `output_df` over `[D1,D2]` and over `[D2+1,D3]` both return
tables, and their concatenation is the table `output_df` returns over
`[D1,D3]` directly. -/
theorem C8_split_concat :
    ∀ (d1 d2 d3 : ℕ) (construct : ℕ → Except PyError SignalTable),
    d1 ≤ d2 → d2 < d3 →
    (∃ d ∈ date_range_list d1 d2, (construct d).isOk = true) →
    (∃ d ∈ date_range_list (d2 + 1) d3, (construct d).isOk = true) →
    ∃ t1 t2 : SignalTable,
      (output_df d1 d2 construct).fst = Except.ok t1
      ∧ (output_df (d2 + 1) d3 construct).fst = Except.ok t2
      ∧ (output_df d1 d3 construct).fst = Except.ok (t1 ++ t2) := by
  intro d1 d2 d3 construct h12 h23 hex1 hex2
  refine ⟨((date_range_list d1 d2).filterMap (fun d => (construct d).toOption)).flatten,
    ((date_range_list (d2 + 1) d3).filterMap (fun d => (construct d).toOption)).flatten,
    ?_, ?_, ?_⟩
  · rw [output_df_fst, pd_concat_ok _ (filterMap_toOption_ne_nil construct _ hex1)]
  · rw [output_df_fst, pd_concat_ok _ (filterMap_toOption_ne_nil construct _ hex2)]
  · rw [output_df_fst, date_range_list_split d1 d2 d3 h12 (le_of_lt h23),
      List.filterMap_append]
    rw [pd_concat_ok _ (by
      intro hnil
      exact filterMap_toOption_ne_nil construct _ hex1 (List.append_eq_nil.mp hnil).1)]
    rw [List.flatten_append]

/-- Witness for C8: dates 0 and 1 both succeed; splitting at 0 gives the
same concatenation as the direct run. -/
theorem C8_witness :
    ∃ t1 t2 : SignalTable,
      (output_df 0 0 (fun d => Except.ok [⟨d, 0, 0, 0⟩])).fst = Except.ok t1
      ∧ (output_df 1 1 (fun d => Except.ok [⟨d, 0, 0, 0⟩])).fst = Except.ok t2
      ∧ (output_df 0 1 (fun d => Except.ok [⟨d, 0, 0, 0⟩])).fst = Except.ok (t1 ++ t2) :=
  C8_split_concat 0 0 1 (fun d => Except.ok [⟨d, 0, 0, 0⟩]) (by decide) (by decide)
    ⟨0, by decide, rfl⟩ ⟨1, by decide, rfl⟩

/-! ### Claim C2 (`finished_df` on a non-increasing date range) -/

/-- Claim C2, counterexample: `finished_df` runs the file reads and the
regression pipeline *before* comparing the dates, so with
`end_date ≤ start_date` it still raises (here: the signals file is
missing) instead of returning `None`. -/
theorem C2_cex :
    ¬ (5 : ℕ) < 5
    ∧ finished_df ⟨Except.error PyError.fileNotFound, Except.ok [],
        fun _ => Except.ok []⟩ "OFI" 5 5 = Except.error PyError.fileNotFound := by
  exact ⟨by decide, rfl⟩

/-- Claim C2 (amended: provided both reads and the regression pipeline
succeed): whenever `end_date` is not strictly greater than `start_date`,
`finished_df` returns `None` (printing a notice) and raises nothing. -/
theorem C2_soft_failure :
    ∀ (env : AnalysisEnv) (fi : String) (s e : ℕ) (data : SignalTable)
      (D : List (ℕ × PFloat)) (results : List (String → Option ℚ)) (beta : List ℚ),
    env.readData = Except.ok data →
    env.readDepth = Except.ok D →
    env.runOLS data = Except.ok results →
    get_beta_coef results fi = Except.ok beta →
    ¬ s < e →
    finished_df env fi s e = Except.ok none := by
  intro env fi s e data D results beta h1 h2 h3 h4 h5
  simp [finished_df, h1, h2, h3, h4, Except.bind, if_neg h5]

/-- Witness for C2: trivial successful pipeline, equal dates. -/
theorem C2_witness :
    ¬ (1 : ℕ) < 1
    ∧ finished_df ⟨Except.ok [], Except.ok [], fun _ => Except.ok []⟩ "OFI" 1 1
        = Except.ok none :=
  ⟨by decide,
    C2_soft_failure ⟨Except.ok [], Except.ok [], fun _ => Except.ok []⟩ "OFI" 1 1
      [] [] [] [] rfl rfl rfl rfl (by decide)⟩

/-! ### Claim C4 (per-bucket `delta_midprice`) -/

/-- Claim C4: in every resampling bucket of the mid-price series, a bucket
with at least two observations yields last minus first, a bucket with
fewer than two yields `0`, and the value only depends on the first and
last observation, not on the intermediate ones. -/
theorem C4_delta_midprice :
    ∀ (quotes : List QuoteRow) (tick_size : ℚ) (delta j : ℕ),
    (2 ≤ (bucketVals delta (mid_price_series quotes tick_size) j).length →
      resampleApplyDelta delta (mid_price_series quotes tick_size) j
        = (bucketVals delta (mid_price_series quotes tick_size) j).getLast?.getD 0
          - (bucketVals delta (mid_price_series quotes tick_size) j).head?.getD 0)
    ∧ ((bucketVals delta (mid_price_series quotes tick_size) j).length < 2 →
      resampleApplyDelta delta (mid_price_series quotes tick_size) j = 0)
    ∧ ∀ (a b : ℚ) (mid midAlt : List ℚ),
        delta_midprice_bucket (a :: (mid ++ [b]))
          = delta_midprice_bucket (a :: (midAlt ++ [b])) := by
  intro quotes tick_size delta j
  have hval : ∀ (a b : ℚ) (m : List ℚ), delta_midprice_bucket (a :: (m ++ [b])) = b - a := by
    intro a b m
    unfold delta_midprice_bucket
    rw [if_pos (by simp)]
    rw [← List.cons_append, List.getLast?_concat]
    simp
  refine ⟨?_, ?_, ?_⟩
  · intro h
    unfold resampleApplyDelta delta_midprice_bucket
    rw [if_pos h]
  · intro h
    unfold resampleApplyDelta delta_midprice_bucket
    rw [if_neg (by omega)]
  · intro a b mid midAlt
    rw [hval, hval]

/-- Witness for C4: a two-quote bucket. -/
theorem C4_witness :
    2 ≤ (bucketVals 10 (mid_price_series
          [⟨0, 1, 100, 99, 1⟩, ⟨5, 1, 102, 101, 1⟩] (1/2)) 0).length
    ∧ resampleApplyDelta 10 (mid_price_series
          [⟨0, 1, 100, 99, 1⟩, ⟨5, 1, 102, 101, 1⟩] (1/2)) 0
        = (bucketVals 10 (mid_price_series
            [⟨0, 1, 100, 99, 1⟩, ⟨5, 1, 102, 101, 1⟩] (1/2)) 0).getLast?.getD 0
          - (bucketVals 10 (mid_price_series
            [⟨0, 1, 100, 99, 1⟩, ⟨5, 1, 102, 101, 1⟩] (1/2)) 0).head?.getD 0 :=
  ⟨by decide,
    (C4_delta_midprice [⟨0, 1, 100, 99, 1⟩, ⟨5, 1, 102, 101, 1⟩] (1/2) 10 0).1 (by decide)⟩

/-! ### Claim C7 (first row of `get_e_n` contributes nothing) -/

theorem get_e_n_cons (q : QuoteRow) (qs : List QuoteRow) :
    ∃ t, get_e_n (q :: qs) = PFloat.nan :: t :=
  ⟨_, rfl⟩

theorem pdSum_cons_nan (l : List PFloat) : pdSum (PFloat.nan :: l) = pdSum l := by
  simp [pdSum, PFloat.toVal, List.filterMap_cons]

/-- Claim C7: the first row of a quote table (whose consecutive price
difference is undefined) contributes nothing to any bucket's OFI sum: the
resampled OFI of every bucket is unchanged when the first row's entry is
dropped (its value is `nan`, which `.sum()` skips). -/
theorem C7_first_row_no_contribution :
    ∀ (delta : ℕ) (quotes : List QuoteRow) (j : ℕ),
    resampleOFI delta quotes j
      = pdSum (((((quotes.map (·.timestamp)).zip (get_e_n quotes)).drop 1).filter
          (fun p => p.fst / delta == j)).map Prod.snd) := by
  intro delta quotes j
  cases quotes with
  | nil => rfl
  | cons q qs =>
    obtain ⟨t, ht⟩ := get_e_n_cons q qs
    unfold resampleOFI
    rw [ht]
    simp only [List.map_cons, List.zip_cons_cons, List.drop_succ_cons, List.drop_zero,
      List.filter_cons]
    by_cases hc : (q.timestamp / delta == j) = true
    · simp only [hc, if_true, List.map_cons, pdSum_cons_nan]
    · simp only [hc, if_false, Bool.false_eq_true]

/-! ### Claim C1 (per-row OFI event value of `get_e_n`) -/

/-- The value of one `get_e_n` entry whose previous row exists, written
with the masks still symbolic, evaluated by trichotomy on each price
difference. -/
theorem e_n_entry (bp0 bp1 ba0 ba1 ap0 ap1 aa0 aa1 : ℚ) :
    PFloat.add
      (PFloat.sub
        (PFloat.sub
          (PFloat.boolMul (PFloat.geZero (PFloat.val (bp1 - bp0))) (PFloat.val ba1))
          (PFloat.boolMul (PFloat.leZero (PFloat.val (bp1 - bp0))) (PFloat.val ba0)))
        (PFloat.boolMul (PFloat.leZero (PFloat.val (ap1 - ap0))) (PFloat.val aa1)))
      (PFloat.boolMul (PFloat.geZero (PFloat.val (ap1 - ap0))) (PFloat.val aa0))
    = PFloat.val
        ((if bp0 < bp1 then ba1 else if bp1 < bp0 then -ba0 else ba1 - ba0)
          + (if ap1 < ap0 then -aa1 else if ap0 < ap1 then aa0 else aa0 - aa1)) := by
  have hbid : ∀ (p0 p1 a0 a1 : ℚ),
      PFloat.sub (PFloat.boolMul (PFloat.geZero (PFloat.val (p1 - p0))) (PFloat.val a1))
                 (PFloat.boolMul (PFloat.leZero (PFloat.val (p1 - p0))) (PFloat.val a0))
        = PFloat.val (if p0 < p1 then a1 else if p1 < p0 then -a0 else a1 - a0) := by
    intro p0 p1 a0 a1
    rcases lt_trichotomy p0 p1 with h | h | h
    · have h1 : PFloat.geZero (PFloat.val (p1 - p0)) = true := by
        simp [PFloat.geZero]; linarith
      have h2 : PFloat.leZero (PFloat.val (p1 - p0)) = false := by
        simp [PFloat.leZero]; linarith
      rw [h1, h2, if_pos h]
      simp [PFloat.boolMul, PFloat.sub]
    · subst h
      have h1 : PFloat.geZero (PFloat.val (p0 - p0)) = true := by
        simp [PFloat.geZero]
      have h2 : PFloat.leZero (PFloat.val (p0 - p0)) = true := by
        simp [PFloat.leZero]
      rw [h1, h2, if_neg (lt_irrefl p0), if_neg (lt_irrefl p0)]
      simp [PFloat.boolMul, PFloat.sub]
    · have h1 : PFloat.geZero (PFloat.val (p1 - p0)) = false := by
        simp [PFloat.geZero]; linarith
      have h2 : PFloat.leZero (PFloat.val (p1 - p0)) = true := by
        simp [PFloat.leZero]; linarith
      rw [h1, h2, if_neg (by linarith), if_pos h]
      simp [PFloat.boolMul, PFloat.sub]
  have hask : ∀ (B p0 p1 a0 a1 : ℚ),
      PFloat.add
        (PFloat.sub (PFloat.val B)
          (PFloat.boolMul (PFloat.leZero (PFloat.val (p1 - p0))) (PFloat.val a1)))
        (PFloat.boolMul (PFloat.geZero (PFloat.val (p1 - p0))) (PFloat.val a0))
        = PFloat.val (B + (if p1 < p0 then -a1 else if p0 < p1 then a0 else a0 - a1)) := by
    intro B p0 p1 a0 a1
    rcases lt_trichotomy p0 p1 with h | h | h
    · have h1 : PFloat.geZero (PFloat.val (p1 - p0)) = true := by
        simp [PFloat.geZero]; linarith
      have h2 : PFloat.leZero (PFloat.val (p1 - p0)) = false := by
        simp [PFloat.leZero]; linarith
      rw [h1, h2, if_neg (by linarith), if_pos h]
      simp [PFloat.boolMul, PFloat.sub, PFloat.add]
    · subst h
      have h1 : PFloat.geZero (PFloat.val (p0 - p0)) = true := by
        simp [PFloat.geZero]
      have h2 : PFloat.leZero (PFloat.val (p0 - p0)) = true := by
        simp [PFloat.leZero]
      rw [h1, h2, if_neg (lt_irrefl p0), if_neg (lt_irrefl p0)]
      simp [PFloat.boolMul, PFloat.sub, PFloat.add]
      ring
    · have h1 : PFloat.geZero (PFloat.val (p1 - p0)) = false := by
        simp [PFloat.geZero]; linarith
      have h2 : PFloat.leZero (PFloat.val (p1 - p0)) = true := by
        simp [PFloat.leZero]; linarith
      rw [h1, h2, if_pos h]
      simp [PFloat.boolMul, PFloat.sub, PFloat.add]
      ring
  rw [hbid, hask]

/-- Entries of `get_e_n` two or more positions past the head only depend
on the tail of the table. -/
theorem get_e_n_getD_succ_succ (q0 : QuoteRow) (tl : List QuoteRow) (n : ℕ) :
    (get_e_n (q0 :: tl)).getD (n + 2) PFloat.nan
      = (get_e_n tl).getD (n + 1) PFloat.nan := by
  cases tl with
  | nil => rfl
  | cons q1 rest => rfl

/-- Claim C1 (amended): at every row with a predecessor, the `get_e_n`
event value is: new bid size on a bid increase, minus the previous bid
size on a bid decrease, MINUS the new ask size on an ask decrease, PLUS
the previous ask size on an ask increase; and on an unchanged bid
(respectively ask) price the bid (ask) part contributes the bid-size
change (the negated ask-size change), so a row with no price change
carries the value `(b₁ - b₀) - (a₁ - a₀)`, which is `0` only when the
sizes are also unchanged. -/
theorem C1_per_row_value :
    ∀ (df : List QuoteRow) (n : ℕ), n + 1 < df.length →
    (get_e_n df).getD (n + 1) PFloat.nan
      = PFloat.val
          ((if (df.getD n default).bid_price < (df.getD (n + 1) default).bid_price
              then (df.getD (n + 1) default).bid_amount
            else if (df.getD (n + 1) default).bid_price < (df.getD n default).bid_price
              then -(df.getD n default).bid_amount
            else (df.getD (n + 1) default).bid_amount - (df.getD n default).bid_amount)
          + (if (df.getD (n + 1) default).ask_price < (df.getD n default).ask_price
              then -(df.getD (n + 1) default).ask_amount
            else if (df.getD n default).ask_price < (df.getD (n + 1) default).ask_price
              then (df.getD n default).ask_amount
            else (df.getD n default).ask_amount - (df.getD (n + 1) default).ask_amount)) := by
  intro df n
  induction n generalizing df with
  | zero =>
    intro h
    match df with
    | [] => simp at h
    | [q0] => simp at h
    | q0 :: q1 :: rest =>
      exact e_n_entry q0.bid_price q1.bid_price q0.bid_amount q1.bid_amount
        q0.ask_price q1.ask_price q0.ask_amount q1.ask_amount
  | succ n ih =>
    intro h
    match df with
    | [] => simp at h
    | q0 :: tl =>
      have h' : n + 1 < tl.length := by simpa using h
      exact (get_e_n_getD_succ_succ q0 tl n).trans (ih tl h')

/-- Claim C1, counterexample.  First table: bid and ask prices unchanged
but the bid size grows from 1 to 2, and the row's value is `1`, not the
claimed `0` (with `>=`/`<=` masks, an unchanged price contributes the size
change).  Second table: the ask price falls from 11 to 9 with new ask size
7, and the row's value is `-7`, not the claimed `+7` (the code subtracts
the new ask size on an ask decrease). -/
theorem C1_cex :
    (get_e_n [⟨0, 5, 11, 10, 1⟩, ⟨1, 5, 11, 10, 2⟩]).getD 1 PFloat.nan = PFloat.val 1
    ∧ PFloat.val 1 ≠ PFloat.val 0
    ∧ (get_e_n [⟨0, 5, 11, 10, 1⟩, ⟨1, 7, 9, 10, 1⟩]).getD 1 PFloat.nan = PFloat.val (-7)
    ∧ PFloat.val (-7) ≠ PFloat.val 7 := by
  refine ⟨?_, by decide, ?_, by decide⟩
  · calc (get_e_n [⟨0, 5, 11, 10, 1⟩, ⟨1, 5, 11, 10, 2⟩]).getD 1 PFloat.nan
        = PFloat.val
            ((if (10:ℚ) < 10 then 2 else if (10:ℚ) < 10 then -1 else 2 - 1)
              + (if (11:ℚ) < 11 then -5 else if (11:ℚ) < 11 then 5 else 5 - 5)) :=
          e_n_entry 10 10 1 2 11 11 5 5
      _ = PFloat.val 1 := by norm_num
  · calc (get_e_n [⟨0, 5, 11, 10, 1⟩, ⟨1, 7, 9, 10, 1⟩]).getD 1 PFloat.nan
        = PFloat.val
            ((if (10:ℚ) < 10 then 1 else if (10:ℚ) < 10 then -1 else 1 - 1)
              + (if (9:ℚ) < 11 then -7 else if (11:ℚ) < 9 then 5 else 5 - 7)) :=
          e_n_entry 10 10 1 1 11 9 5 7
      _ = PFloat.val (-7) := by norm_num

/-- Witness for C1: a bid-price increase from 10 to 12 with new bid size 3
and an unchanged ask contributes exactly `+3`. -/
theorem C1_witness :
    (get_e_n [⟨0, 5, 11, 10, 1⟩, ⟨1, 5, 11, 12, 3⟩]).getD 1 PFloat.nan = PFloat.val 3 := by
  have h := C1_per_row_value [⟨0, 5, 11, 10, 1⟩, ⟨1, 5, 11, 12, 3⟩] 0 (by decide)
  rw [h]
  norm_num [List.getD_cons_zero, List.getD_cons_succ]

/-! ### Claim C5 (`get_avg_depth` on a table without price changes) -/

theorem pdDiff_chain (x : ℚ) (xs : List ℚ) (h : List.Chain' Eq (x :: xs)) :
    pdDiff (x :: xs) = PFloat.nan :: List.replicate xs.length (PFloat.val 0) := by
  have hz : ∀ (y : ℚ) (ys : List ℚ), List.Chain' Eq (y :: ys) →
      List.zipWith (fun a b => PFloat.val (a - b)) ys (y :: ys)
        = List.replicate ys.length (PFloat.val 0) := by
    intro y ys
    induction ys generalizing y with
    | nil => intro _; rfl
    | cons z zs ih =>
      intro hch
      obtain ⟨hyz, h'⟩ := List.chain'_cons.mp hch
      rw [List.zipWith_cons_cons, ih z h', List.length_cons, List.replicate_succ, hyz]
      simp
  rw [pdDiff, hz x xs h]

theorem pdSum_zero_of_forall (l : List PFloat)
    (h : ∀ x ∈ l, x = PFloat.nan ∨ x = PFloat.val 0) : pdSum l = 0 := by
  induction l with
  | nil => rfl
  | cons a t ih =>
    have ht := ih (fun x hx => h x (List.mem_cons_of_mem a hx))
    rcases h a (List.mem_cons_self a t) with ha | ha
    · subst ha
      rw [pdSum_cons_nan, ht]
    · subst ha
      have hstep : pdSum (PFloat.val 0 :: t) = 0 + pdSum t := by
        simp [pdSum, PFloat.toVal, List.filterMap_cons]
      rw [hstep, ht, add_zero]

theorem exists_of_mem_zipWith {α β γ : Type} {f : α → β → γ} :
    ∀ {l1 : List α} {l2 : List β} {y : γ}, y ∈ List.zipWith f l1 l2 →
      ∃ a ∈ l1, ∃ b ∈ l2, y = f a b := by
  intro l1
  induction l1 with
  | nil => intro l2 y h; simp at h
  | cons a t ih =>
    intro l2 y h
    cases l2 with
    | nil => simp at h
    | cons b t2 =>
      rw [List.zipWith_cons_cons] at h
      rcases List.mem_cons.mp h with h | h
      · exact ⟨a, List.mem_cons_self a t, b, List.mem_cons_self b t2, h⟩
      · obtain ⟨x, hx, z, hz, hy⟩ := ih h
        exact ⟨x, List.mem_cons_of_mem a hx, z, List.mem_cons_of_mem b hz, hy⟩

theorem depthSideSum_zero (c1 c2 : PFloat → Bool)
    (h1 : c1 PFloat.nan = false) (h2 : c2 PFloat.nan = false)
    (h3 : c1 (PFloat.val 0) = false) (h4 : c2 (PFloat.val 0) = false)
    (prices amounts : List ℚ) (hc : List.Chain' Eq prices) :
    depthSideSum c1 c2 prices amounts = 0 := by
  unfold depthSideSum
  apply pdSum_zero_of_forall
  intro y hy
  obtain ⟨d, hd, pa, _, rfl⟩ := exists_of_mem_zipWith hy
  have hdval : d = PFloat.nan ∨ d = PFloat.val 0 := by
    cases prices with
    | nil => simp [pdDiff] at hd
    | cons x xs =>
      rw [pdDiff_chain x xs hc] at hd
      rcases List.mem_cons.mp hd with h | h
      · exact Or.inl h
      · exact Or.inr (List.eq_of_mem_replicate h)
  obtain ⟨paf, pas⟩ := pa
  rcases hdval with rfl | rfl
  · rw [h1, h2]
    cases pas with
    | nan => left; simp [PFloat.boolMul, PFloat.add]
    | val q => right; simp [PFloat.boolMul, PFloat.add]
  · rw [h3, h4]
    cases pas with
    | nan => left; simp [PFloat.boolMul, PFloat.add]
    | val q => right; simp [PFloat.boolMul, PFloat.add]

theorem changeCount_chain (x : ℚ) (xs : List ℚ) (h : List.Chain' Eq (x :: xs)) :
    changeCount (x :: xs) = 1 := by
  unfold changeCount
  rw [pdDiff_chain x xs h]
  have hrep : ∀ n, (List.replicate n (PFloat.val 0)).filter PFloat.neZero = [] := by
    intro n
    induction n with
    | zero => rfl
    | succ n ih => rw [List.replicate_succ, List.filter_cons]; simp [PFloat.neZero, ih]
  simp [List.filter_cons, PFloat.neZero, hrep]

/-- Claim C5 (amended): the undefined first difference counts as a nonzero
price change (`nan != 0` is true), so on every NONEMPTY quote table with no
bid (ask) price change the per-side denominator is `1`, not `0`, and the
per-side quotient is `0`, not `nan`; with both sides unchanged
`get_avg_depth` returns `0`.  A division by zero producing `nan` happens
only on the empty table. -/
theorem C5_no_change_depth :
    ∀ df : List QuoteRow, df ≠ [] →
    (List.Chain' Eq (df.map (·.bid_price)) →
        changeCount (df.map (·.bid_price)) = 1
        ∧ npDiv (depthSideSum PFloat.ltZero PFloat.gtZero
              (df.map (·.bid_price)) (df.map (·.bid_amount)))
            (changeCount (df.map (·.bid_price))) = PFloat.val 0)
    ∧ (List.Chain' Eq (df.map (·.ask_price)) →
        changeCount (df.map (·.ask_price)) = 1
        ∧ npDiv (depthSideSum PFloat.gtZero PFloat.ltZero
              (df.map (·.ask_price)) (df.map (·.ask_amount)))
            (changeCount (df.map (·.ask_price))) = PFloat.val 0)
    ∧ (List.Chain' Eq (df.map (·.bid_price)) → List.Chain' Eq (df.map (·.ask_price)) →
        get_avg_depth df = PFloat.val 0)
    ∧ get_avg_depth [] = PFloat.nan := by
  intro df hne
  have side : ∀ (c1 c2 : PFloat → Bool) (prices amounts : List ℚ), prices ≠ [] →
      c1 PFloat.nan = false → c2 PFloat.nan = false →
      c1 (PFloat.val 0) = false → c2 (PFloat.val 0) = false →
      List.Chain' Eq prices →
      changeCount prices = 1
      ∧ npDiv (depthSideSum c1 c2 prices amounts) (changeCount prices) = PFloat.val 0 := by
    intro c1 c2 prices amounts hp h1 h2 h3 h4 hc
    cases prices with
    | nil => exact absurd rfl hp
    | cons x xs =>
      have hcnt := changeCount_chain x xs hc
      refine ⟨hcnt, ?_⟩
      rw [depthSideSum_zero c1 c2 h1 h2 h3 h4 _ amounts hc, hcnt]
      simp [npDiv]
  have hmapne : ∀ f : QuoteRow → ℚ, df.map f ≠ [] := by
    intro f hmap
    exact hne (List.map_eq_nil_iff.mp hmap)
  have hbid := side PFloat.ltZero PFloat.gtZero (df.map (·.bid_price)) (df.map (·.bid_amount))
    (hmapne _) rfl rfl (by simp [PFloat.ltZero]) (by simp [PFloat.gtZero])
  have hask := side PFloat.gtZero PFloat.ltZero (df.map (·.ask_price)) (df.map (·.ask_amount))
    (hmapne _) rfl rfl (by simp [PFloat.gtZero]) (by simp [PFloat.ltZero])
  refine ⟨fun hc => hbid hc, fun hc => hask hc, fun hcb hca => ?_, rfl⟩
  unfold get_avg_depth
  rw [(hbid hcb).2, (hask hca).2]
  simp [PFloat.add, PFloat.mulVal]

/-- Claim C5, counterexample: a two-row table with constant bid and ask
prices.  The per-side count of nonzero price changes is `1` (the first
`nan` difference), so no division by zero occurs, and `get_avg_depth`
returns `0`, not `nan`. -/
theorem C5_cex :
    changeCount (([⟨0, 5, 11, 10, 1⟩, ⟨1, 5, 11, 10, 2⟩] : List QuoteRow).map (·.bid_price)) = 1
    ∧ changeCount (([⟨0, 5, 11, 10, 1⟩, ⟨1, 5, 11, 10, 2⟩] : List QuoteRow).map (·.ask_price)) = 1
    ∧ get_avg_depth [⟨0, 5, 11, 10, 1⟩, ⟨1, 5, 11, 10, 2⟩] = PFloat.val 0
    ∧ PFloat.val 0 ≠ PFloat.nan := by
  have hb : List.Chain' Eq ([(10:ℚ), 10]) := by simp
  have ha : List.Chain' Eq ([(11:ℚ), 11]) := by simp
  have hcb : changeCount [(10:ℚ), 10] = 1 := changeCount_chain 10 [10] hb
  have hca : changeCount [(11:ℚ), 11] = 1 := changeCount_chain 11 [11] ha
  have hnb := depthSideSum_zero PFloat.ltZero PFloat.gtZero rfl rfl
    (by simp [PFloat.ltZero]) (by simp [PFloat.gtZero]) [(10:ℚ), 10] [(1:ℚ), 2] hb
  have hna := depthSideSum_zero PFloat.gtZero PFloat.ltZero rfl rfl
    (by simp [PFloat.gtZero]) (by simp [PFloat.ltZero]) [(11:ℚ), 11] [(5:ℚ), 5] ha
  refine ⟨hcb, hca, ?_, by decide⟩
  show PFloat.mulVal (1/2) (PFloat.add
    (npDiv (depthSideSum PFloat.ltZero PFloat.gtZero [(10:ℚ), 10] [(1:ℚ), 2])
      (changeCount [(10:ℚ), 10]))
    (npDiv (depthSideSum PFloat.gtZero PFloat.ltZero [(11:ℚ), 11] [(5:ℚ), 5])
      (changeCount [(11:ℚ), 11]))) = PFloat.val 0
  rw [hnb, hna, hcb, hca]
  simp [npDiv, PFloat.add, PFloat.mulVal]

/-- Witness for C5: a one-row table (prices trivially unchanged) yields
average depth `0` with per-side denominators `1`. -/
theorem C5_witness :
    get_avg_depth [⟨2, 4, 8, 7, 3⟩] = PFloat.val 0 :=
  (C5_no_change_depth [⟨2, 4, 8, 7, 3⟩] (by decide)).2.2.1 (by simp) (by simp)

/-! ### Claim C3 (`create_dataframe` grid and positional assignment) -/

theorem mem_insertSorted (x a : ℕ) (l : List ℕ) :
    x ∈ insertSorted a l ↔ x = a ∨ x ∈ l := by
  induction l with
  | nil => simp [insertSorted]
  | cons y ys ih =>
    unfold insertSorted
    by_cases h : a ≤ y
    · rw [if_pos h]
      simp
    · rw [if_neg h]
      simp only [List.mem_cons, ih]
      tauto

theorem mem_sortNat (x : ℕ) (l : List ℕ) : x ∈ sortNat l ↔ x ∈ l := by
  induction l with
  | nil => simp [sortNat]
  | cons y ys ih =>
    simp only [sortNat, List.foldr_cons] at ih ⊢
    rw [mem_insertSorted, ih]
    simp [List.mem_cons]

theorem lookup_map_pair (keys : List ℕ) (f : ℕ → PFloat × PFloat) (t : ℕ) (ht : t ∈ keys) :
    (keys.map (fun s => (s, f s))).lookup t = some (f t) := by
  induction keys with
  | nil => simp at ht
  | cons k ks ih =>
    rw [List.map_cons, List.lookup_cons]
    by_cases h : t = k
    · subst h
      simp
    · have htk : t ∈ ks := by
        rcases List.mem_cons.mp ht with h' | h'
        · exact absurd h' h
        · exact h'
      have hbeq : (t == k) = false := by simp [h]
      rw [hbeq]
      exact ih htk

theorem lookup_zip_self :
    ∀ (ks : List ℕ) (vs : List ℚ) (k : ℕ) (h1 : k < ks.length) (h2 : k < vs.length),
    ks.Nodup → (ks.zip vs).lookup (ks.get ⟨k, h1⟩) = some (vs.get ⟨k, h2⟩) := by
  intro ks
  induction ks with
  | nil => intro vs k h1; simp at h1
  | cons a as ih =>
    intro vs k h1 h2 hnd
    cases vs with
    | nil => simp at h2
    | cons b bs =>
      cases k with
      | zero => simp [List.zip_cons_cons, List.lookup_cons]
      | succ k =>
        have hk1 : k < as.length := by simpa using h1
        have hk2 : k < bs.length := by simpa using h2
        have hmem : as.get ⟨k, hk1⟩ ∈ as := List.get_mem as k hk1
        have hne : (as.get ⟨k, hk1⟩ == a) = false := by
          simp only [beq_eq_false_iff_ne, ne_eq]
          intro heq
          exact (List.nodup_cons.mp hnd).1 (heq ▸ hmem)
        rw [List.zip_cons_cons]
        show ((a, b) :: as.zip bs).lookup (as.get ⟨k, hk1⟩) = _
        rw [List.lookup_cons, hne]
        exact ih bs k hk1 hk2 (List.nodup_cons.mp hnd).2

theorem foldl_min_le (l : List ℕ) : ∀ a : ℕ, l.foldl min a ≤ a := by
  induction l with
  | nil => intro a; exact le_refl a
  | cons x xs ih =>
    intro a
    rw [List.foldl_cons]
    exact le_trans (ih (min a x)) (min_le_left a x)

theorem le_foldl_max (l : List ℕ) : ∀ a : ℕ, a ≤ l.foldl max a := by
  induction l with
  | nil => intro a; exact le_refl a
  | cons x xs ih =>
    intro a
    rw [List.foldl_cons]
    exact le_trans (le_max_left a x) (ih (max a x))

theorem tsMinD_le_tsMaxD (dep : List (ℕ × PFloat)) : tsMinD dep ≤ tsMaxD dep := by
  cases dep with
  | nil => exact le_refl 0
  | cons d ds =>
    unfold tsMinD tsMaxD
    exact le_trans (foldl_min_le _ d.fst) (le_foldl_max _ d.fst)

/-- Claim C3 (amended): `create_dataframe` builds the uniform 30-minute
grid spanning the depth index minimum to maximum and assigns the beta
values onto it positionally; but a beta sequence whose LENGTH does not
match the grid raises `ValueError` (from
`pd.Series(values, index)`), and only an equal-length sequence with
mismatched window boundaries produces silently misaligned output. -/
theorem C3_positional_alignment :
    ∀ (beta : List ℚ) (dep : List (ℕ × PFloat)), dep ≠ [] →
    ((depth_grid dep).length = (tsMaxD dep - tsMinD dep) / 1800 + 1
    ∧ (∀ (k : ℕ) (hk : k < (depth_grid dep).length),
        (depth_grid dep).get ⟨k, hk⟩ = tsMinD dep + 1800 * k)
    ∧ (beta.length ≠ (depth_grid dep).length →
        create_dataframe beta dep
          = Except.error (PyError.valueError "Length of values does not match length of index"))
    ∧ (∀ hlen : beta.length = (depth_grid dep).length,
        create_dataframe beta dep = Except.ok (cdRows beta dep)
        ∧ ∀ (k : ℕ) (hk : k < (depth_grid dep).length),
            (cdRows beta dep).lookup ((depth_grid dep).get ⟨k, hk⟩)
              = some (PFloat.val (beta.get ⟨k, by rw [hlen]; exact hk⟩),
                  match dep.lookup ((depth_grid dep).get ⟨k, hk⟩) with
                  | some v => v
                  | none => PFloat.nan))) := by
  intro beta dep hne
  have hgridnd : (depth_grid dep).Nodup := by
    cases dep with
    | nil => simp [depth_grid]
    | cons d ds =>
      unfold depth_grid date_range
      rw [if_pos (tsMinD_le_tsMaxD (d :: ds))]
      exact List.nodup_range' _ _ 1800 (by norm_num)
  have hgetgrid : ∀ (k : ℕ) (hk : k < (depth_grid dep).length),
      (depth_grid dep).get ⟨k, hk⟩ = tsMinD dep + 1800 * k := by
    cases dep with
    | nil => intro k hk; simp [depth_grid] at hk
    | cons d ds =>
      intro k hk
      have hgeq : depth_grid (d :: ds)
          = List.range' (tsMinD (d :: ds)) ((tsMaxD (d :: ds) - tsMinD (d :: ds)) / 1800 + 1) 1800 := by
        unfold depth_grid date_range
        rw [if_pos (tsMinD_le_tsMaxD (d :: ds))]
      have h1 : (depth_grid (d :: ds))[k]? = some (tsMinD (d :: ds) + 1800 * k) := by
        rw [hgeq, List.getElem?_eq_getElem (by simpa [hgeq] using hk)]
        simp [List.getElem_range']
      have h2 : (depth_grid (d :: ds))[k]? = some ((depth_grid (d :: ds)).get ⟨k, hk⟩) := by
        rw [List.getElem?_eq_getElem hk]
        simp [List.get_eq_getElem]
      exact Option.some_inj.mp (h2.symm.trans h1)
  refine ⟨?_, hgetgrid, ?_, ?_⟩
  · cases dep with
    | nil => exact absurd rfl hne
    | cons d ds =>
      unfold depth_grid date_range
      rw [if_pos (tsMinD_le_tsMaxD (d :: ds))]
      exact List.length_range' _ _ _
  · intro hnelen
    cases dep with
    | nil => exact absurd rfl hne
    | cons d ds =>
      unfold create_dataframe
      rw [if_neg hnelen]
  · intro hlen
    have hok : create_dataframe beta dep = Except.ok (cdRows beta dep) := by
      cases dep with
      | nil => exact absurd rfl hne
      | cons d ds =>
        unfold create_dataframe
        rw [if_pos hlen]
    refine ⟨hok, ?_⟩
    intro k hk
    have htmem : (depth_grid dep).get ⟨k, hk⟩
        ∈ sortNat ((depth_grid dep ++ dep.map Prod.fst).dedup) := by
      rw [mem_sortNat, List.mem_dedup]
      exact List.mem_append_left _ (List.get_mem _ k hk)
    unfold cdRows
    rw [lookup_map_pair _ _ _ htmem]
    have hbeta : ((depth_grid dep).zip beta).lookup ((depth_grid dep).get ⟨k, hk⟩)
        = some (beta.get ⟨k, by rw [hlen]; exact hk⟩) :=
      lookup_zip_self (depth_grid dep) beta k hk (by rw [hlen]; exact hk) hgridnd
    rw [hbeta]

/-- Claim C3, counterexample: a beta sequence of length 1 against a depth
series spanning two half-hour grid points.  The length mismatch raises
`ValueError` (as `pd.Series(values, index)` does) — it does NOT produce
silently misaligned output. -/
theorem C3_cex :
    ([(1:ℚ)]).length ≠ (depth_grid [(0, PFloat.val 1), (1800, PFloat.val 2)]).length
    ∧ create_dataframe [(1:ℚ)] [(0, PFloat.val 1), (1800, PFloat.val 2)]
        = Except.error (PyError.valueError "Length of values does not match length of index") := by
  exact ⟨by decide, rfl⟩

/-- Witness for C3: an equal-length beta sequence is accepted and lands
positionally: the first beta value (5) sits at the first grid timestamp 0,
next to the depth value recorded at 0. -/
theorem C3_witness :
    create_dataframe [(5:ℚ), 6] [(0, PFloat.val 1), (1800, PFloat.val 2)]
        = Except.ok (cdRows [(5:ℚ), 6] [(0, PFloat.val 1), (1800, PFloat.val 2)])
    ∧ (cdRows [(5:ℚ), 6] [(0, PFloat.val 1), (1800, PFloat.val 2)]).lookup 0
        = some (PFloat.val 5, PFloat.val 1) := by
  have h := C3_positional_alignment [(5:ℚ), 6] [(0, PFloat.val 1), (1800, PFloat.val 2)]
    (by decide)
  have h2 := h.2.2.2 (by decide)
  refine ⟨h2.1, ?_⟩
  have h3 := h2.2 0 (by decide)
  exact h3

/-! ### Claim C9 (mean of the normalized seasonality profile) -/

theorem sum_map_add_split (l : List ℕ) (f g : ℕ → ℚ) :
    (l.map (fun x => f x + g x)).sum = (l.map f).sum + (l.map g).sum := by
  induction l with
  | nil => simp
  | cons x xs ih => simp [ih]; ring

theorem sum_map_div_right (l : List ℕ) (m : ℕ → ℚ) (c : ℚ) :
    (l.map (fun x => m x / c)).sum = (l.map m).sum / c := by
  induction l with
  | nil => simp
  | cons x xs ih => simp [ih, add_div]

theorem sum_map_constant (l : List ℕ) (q : ℚ) :
    (l.map (fun _ => q)).sum = l.length * q := by
  induction l with
  | nil => simp
  | cons x xs ih => simp [ih]; ring

theorem sum_map_one_rows (l : List (ℕ × ℚ)) :
    (l.map (fun _ => (1:ℚ))).sum = l.length := by
  induction l with
  | nil => simp
  | cons x xs ih => simp [ih]; ring

theorem sum_single_hit (v : ℚ) (a : ℕ) :
    ∀ (labels : List ℕ), labels.Nodup → a ∈ labels →
    (labels.map (fun l => if a == l then v else 0)).sum = v := by
  have hzero : ∀ (labels : List ℕ), a ∉ labels →
      (labels.map (fun l => if a == l then v else 0)).sum = 0 := by
    intro labels
    induction labels with
    | nil => intro _; simp
    | cons y ys ih =>
      intro hna
      have hay : ¬ a = y := fun h => hna (h ▸ List.mem_cons_self y ys)
      have hays : a ∉ ys := fun h => hna (List.mem_cons_of_mem y h)
      simp only [List.map_cons, List.sum_cons, ih hays]
      simp [hay]
  intro labels
  induction labels with
  | nil => intro _ h; simp at h
  | cons y ys ih =>
    intro hnd hmem
    by_cases hay : a = y
    · subst hay
      have hna : a ∉ ys := (List.nodup_cons.mp hnd).1
      simp only [List.map_cons, List.sum_cons, hzero ys hna]
      simp
    · have hmem' : a ∈ ys := by
        rcases List.mem_cons.mp hmem with h | h
        · exact absurd h hay
        · exact h
      simp only [List.map_cons, List.sum_cons, ih (List.nodup_cons.mp hnd).2 hmem']
      simp [hay]

/-- Grouping a column by label and summing each fiber recovers the total
sum, provided the labels are distinct and cover every row. -/
theorem sum_fiber_eq (f : (ℕ × ℚ) → ℚ) (labels : List ℕ) (hnd : labels.Nodup) :
    ∀ (rows : List (ℕ × ℚ)), (∀ r ∈ rows, r.fst % 86400 ∈ labels) →
    (labels.map (fun l => ((rows.filter (fun r => r.fst % 86400 == l)).map f).sum)).sum
      = (rows.map f).sum := by
  intro rows
  induction rows with
  | nil => intro _; simp
  | cons r rest ih =>
    intro hall
    have hrest := ih (fun x hx => hall x (List.mem_cons_of_mem r hx))
    have hr := hall r (List.mem_cons_self r rest)
    have hstep : ∀ l : ℕ,
        (((r :: rest).filter (fun x => x.fst % 86400 == l)).map f).sum
          = (if r.fst % 86400 == l then f r else 0)
            + ((rest.filter (fun x => x.fst % 86400 == l)).map f).sum := by
      intro l
      rw [List.filter_cons]
      by_cases hc : (r.fst % 86400 == l) = true
      · simp [hc]
      · simp [hc]
    rw [List.map_congr_left (fun l _ => hstep l), sum_map_add_split,
      sum_single_hit (f r) (r.fst % 86400) labels hnd hr, hrest]
    simp

/-- Claim C9 (amended: additionally assuming every one of the 48 labels
carries the same number `c > 0` of rows — e.g. a report of whole days):
the mean over the 48 half-hour labels of the normalized series is exactly
1.  The same statement applies verbatim to the beta and to the depth
column (`rows` ranges over either timestamped column). -/
theorem C9_normalized_mean_balanced :
    ∀ (rows : List (ℕ × ℚ)) (c : ℕ), 0 < c →
    groupKeys rows = halfhourLabels →
    (∀ l ∈ halfhourLabels, (labelValues rows l).length = c) →
    pdMean (rows.map Prod.snd) ≠ 0 →
    pdMean (normalized_series rows) = 1 := by
  intro rows c hc hkeys hcount hg
  have hlabnd : halfhourLabels.Nodup := by decide
  have hlab48 : halfhourLabels.length = 48 := by decide
  have hall : ∀ r ∈ rows, r.fst % 86400 ∈ halfhourLabels := by
    intro r hr
    have h1 : r.fst % 86400 ∈ rows.map (fun x => x.fst % 86400) :=
      List.mem_map_of_mem _ hr
    have h2 : r.fst % 86400 ∈ (rows.map (fun x => x.fst % 86400)).dedup :=
      List.mem_dedup.mpr h1
    have h3 : r.fst % 86400 ∈ groupKeys rows := (mem_sortNat _ _).mpr h2
    rw [hkeys] at h3
    exact h3
  -- total of the column, via the fiber decomposition
  have hT : (halfhourLabels.map (fun l => (labelValues rows l).sum)).sum
      = (rows.map Prod.snd).sum := by
    simpa [labelValues] using sum_fiber_eq Prod.snd halfhourLabels hlabnd rows hall
  -- row count = 48 * c, via the fiber decomposition of the constant 1
  have hones : ∀ l : ℕ,
      ((rows.filter (fun r => r.fst % 86400 == l)).map (fun _ => (1:ℚ))).sum
        = ((labelValues rows l).length : ℚ) := by
    intro l
    rw [sum_map_one_rows]
    simp [labelValues]
  have hN : ((rows.length : ℚ)) = 48 * c := by
    have h1 := sum_fiber_eq (fun _ => (1:ℚ)) halfhourLabels hlabnd rows hall
    rw [List.map_congr_left (fun l _ => hones l), sum_map_one_rows] at h1
    rw [List.map_congr_left (fun l hl => by rw [hcount l hl])] at h1
    rw [sum_map_constant, hlab48] at h1
    exact h1.symm
  -- unfold the pipeline
  have hmeans : means_by_time rows
      = halfhourLabels.map (fun l => pdMean (labelValues rows l)) := by
    unfold means_by_time
    rw [hkeys]
  have hsum48 : (normalized_series rows).length = 48 := by
    unfold normalized_series
    rw [List.length_map, hmeans, List.length_map, hlab48]
  set g := pdMean (rows.map Prod.snd) with hgdef
  have hTne : (rows.map Prod.snd).sum ≠ 0 := by
    intro h0
    apply hg
    rw [hgdef]
    unfold pdMean
    rw [h0, zero_div]
  have hcne : ((c:ℚ)) ≠ 0 := by
    exact_mod_cast Nat.pos_iff_ne_zero.mp hc
  have hglen : g = (rows.map Prod.snd).sum / (48 * c) := by
    rw [hgdef]
    unfold pdMean
    rw [List.length_map, hN]
  -- sum of the normalized series
  have hnsum : (normalized_series rows).sum
      = ((rows.map Prod.snd).sum / c) / g := by
    unfold normalized_series
    rw [hmeans, List.map_map]
    have hcomp : ((fun m => m / g) ∘ fun l => pdMean (labelValues rows l))
        = fun l => pdMean (labelValues rows l) / g := rfl
    rw [hcomp, sum_map_div_right]
    congr 1
    have hpointwise : ∀ l ∈ halfhourLabels,
        pdMean (labelValues rows l) = (labelValues rows l).sum / (c:ℚ) := by
      intro l hl
      unfold pdMean
      rw [hcount l hl]
    rw [List.map_congr_left hpointwise, sum_map_div_right, hT]
  unfold pdMean
  rw [hsum48, hnsum, hglen]
  field_simp
  ring

/-- Claim C9, counterexample: a non-degenerate report (all 48 labels
present, nonzero global mean) in which label "00:00" holds two rows
(values 1 and 97, one per day) while every other label holds one row of
value 1.  The global mean is 145/49 but the mean of the 48 per-label
normalized values is 98/145 ≠ 1: with unbalanced label counts the mean of
per-label means is not the global mean. -/
theorem C9_cex :
    nondegenerate (((List.range 48).map (fun k => (1800 * k, (1:ℚ)))) ++ [(86400, 97)])
    ∧ pdMean (normalized_series
        (((List.range 48).map (fun k => (1800 * k, (1:ℚ)))) ++ [(86400, 97)])) ≠ 1 := by
  have hkeys : groupKeys (((List.range 48).map (fun k => (1800 * k, (1:ℚ)))) ++ [(86400, 97)])
      = halfhourLabels := by decide
  have hsnd : (((List.range 48).map (fun k => (1800 * k, (1:ℚ)))) ++ [(86400, 97)]).map Prod.snd
      = List.replicate 48 (1:ℚ) ++ [(97:ℚ)] := by decide
  have hglobal : pdMean ((((List.range 48).map (fun k => (1800 * k, (1:ℚ))))
      ++ [(86400, 97)]).map Prod.snd) = 145/49 := by
    rw [hsnd]
    unfold pdMean
    rw [List.sum_append, List.sum_replicate]
    simp
    norm_num
  have hlv : halfhourLabels.map
      (fun l => labelValues (((List.range 48).map (fun k => (1800 * k, (1:ℚ))))
        ++ [(86400, 97)]) l)
      = [(1:ℚ), 97] :: List.replicate 47 [(1:ℚ)] := by decide
  have h49 : pdMean [(1:ℚ), 97] = 49 := by
    unfold pdMean
    norm_num
  have h1 : pdMean [(1:ℚ)] = 1 := by
    unfold pdMean
    norm_num
  have hmeans : means_by_time (((List.range 48).map (fun k => (1800 * k, (1:ℚ))))
      ++ [(86400, 97)]) = (49:ℚ) :: List.replicate 47 (1:ℚ) := by
    calc means_by_time (((List.range 48).map (fun k => (1800 * k, (1:ℚ)))) ++ [(86400, 97)])
        = halfhourLabels.map (fun l =>
            pdMean (labelValues (((List.range 48).map (fun k => (1800 * k, (1:ℚ))))
              ++ [(86400, 97)]) l)) := by
          unfold means_by_time
          rw [hkeys]
      _ = (halfhourLabels.map (fun l =>
            labelValues (((List.range 48).map (fun k => (1800 * k, (1:ℚ))))
              ++ [(86400, 97)]) l)).map pdMean := by
          rw [List.map_map]
          rfl
      _ = (49:ℚ) :: List.replicate 47 (1:ℚ) := by
          rw [hlv, List.map_cons, List.map_replicate, h49, h1]
  have hnorm : normalized_series (((List.range 48).map (fun k => (1800 * k, (1:ℚ))))
      ++ [(86400, 97)])
      = ((49:ℚ) / (145/49)) :: List.replicate 47 ((1:ℚ) / (145/49)) := by
    unfold normalized_series
    rw [hmeans, hglobal, List.map_cons, List.map_replicate]
  refine ⟨⟨hkeys, ?_⟩, ?_⟩
  · rw [hglobal]
    norm_num
  · rw [hnorm]
    unfold pdMean
    rw [List.sum_cons, List.sum_replicate]
    simp
    norm_num

/-- Witness for C9 (amended): one full day — each label holds exactly one
row of value 1 — has normalized-profile mean exactly 1. -/
theorem C9_witness :
    groupKeys ((List.range 48).map (fun k => (1800 * k, (1:ℚ)))) = halfhourLabels
    ∧ pdMean ((((List.range 48).map (fun k => (1800 * k, (1:ℚ))))).map Prod.snd) ≠ 0
    ∧ pdMean (normalized_series ((List.range 48).map (fun k => (1800 * k, (1:ℚ))))) = 1 := by
  have hkeys : groupKeys ((List.range 48).map (fun k => (1800 * k, (1:ℚ)))) = halfhourLabels := by
    decide
  have hcount : ∀ l ∈ halfhourLabels,
      (labelValues ((List.range 48).map (fun k => (1800 * k, (1:ℚ)))) l).length = 1 := by
    decide
  have hsnd : (((List.range 48).map (fun k => (1800 * k, (1:ℚ))))).map Prod.snd
      = List.replicate 48 (1:ℚ) := by decide
  have hg : pdMean ((((List.range 48).map (fun k => (1800 * k, (1:ℚ))))).map Prod.snd) ≠ 0 := by
    rw [hsnd]
    unfold pdMean
    rw [List.sum_replicate]
    simp
  exact ⟨hkeys, hg,
    C9_normalized_mean_balanced ((List.range 48).map (fun k => (1800 * k, (1:ℚ)))) 1
      (by decide) hkeys hcount hg⟩
